import Mathlib

/-!
Shallow embedding of the SRE-Scanner agent core (src/agent/agent.py,
src/agent/functions.py, src/tools/sqlmap_wrapper.py, src/main.py) and proofs
of the specification claims about it.

The tool-dispatch loop `function_call` (src/agent/agent.py, lines 23-61) is
embedded as a fuel-indexed transition function over an explicit message
history.  JSON values in flight between the backend and the capability
handlers are modelled by the inductive type `Json`; the textual `arguments`
payloads are decoded by `json_loads` (embedding Python's `json.loads` on the
JSON fragment the backend emits) and handler return values are re-serialized
by `Json.dumps` (embedding `json.dumps(result, ensure_ascii=False)`).
Capability handlers perform external I/O in the source; their behaviour is
abstracted as functions from decoded arguments to `Except Fault Json`, while
the registry structure itself (`function_map`, src/agent/functions.py lines
345-352) is embedded concretely.
-/

namespace SREScanner

/-- JSON values, the data exchanged between the reasoning backend and the
capability handlers.  Numbers are restricted to integers, which covers every
payload the embedded claims touch. -/
inductive Json where
  | null : Json
  | bool (b : Bool) : Json
  | num (n : Int) : Json
  | str (s : String) : Json
  | arr (elems : List Json) : Json
  | obj (fields : List (String × Json)) : Json
deriving Repr, BEq

/-- Decoded keyword arguments for a handler: the mapping produced by
`json.loads` on a request's `arguments` text (src/agent/agent.py line 42). -/
abbrev Args : Type := List (String × Json)

/-! ### json.dumps with ensure_ascii=False (src/agent/agent.py line 56) -/

/-- Four-digit lowercase hex rendering used by Python's `\uXXXX` escapes. -/
def hexDigit (n : Nat) : Char :=
  if n < 10 then Char.ofNat (48 + n) else Char.ofNat (87 + n)

/-- Hexadecimal string of exactly four digits. -/
def hex4 (n : Nat) : String :=
  String.mk [hexDigit (n / 4096 % 16), hexDigit (n / 256 % 16),
             hexDigit (n / 16 % 16), hexDigit (n % 16)]

/-- Escaping of one character inside a JSON string literal, as performed by
`json.dumps` with `ensure_ascii=False`: only the quote, the backslash and
control characters below U+0020 are escaped; everything else — in particular
every non-ASCII character — is emitted verbatim. -/
def escapeChar (c : Char) : String :=
  if c = '"' then "\\\""
  else if c = '\\' then "\\\\"
  else if c.toNat = 10 then "\\n"
  else if c.toNat = 9 then "\\t"
  else if c.toNat = 13 then "\\r"
  else if c.toNat = 8 then "\\b"
  else if c.toNat = 12 then "\\f"
  else if c.toNat < 32 then "\\u" ++ hex4 c.toNat
  else String.mk [c]

/-- Escape a whole character list. -/
def escapeChars : List Char → String
  | [] => ""
  | c :: cs => escapeChar c ++ escapeChars cs

/-- A JSON string literal: quote, escaped body, quote. -/
def encodeString (s : String) : String :=
  "\"" ++ escapeChars s.data ++ "\""

mutual

/-- Serialization of a `Json` value as Python's
`json.dumps(v, ensure_ascii=False)` renders it (default separators). -/
def Json.dumps : Json → String
  | .null => "null"
  | .bool b => if b then "true" else "false"
  | .num n => toString n
  | .str s => encodeString s
  | .arr elems => "[" ++ dumpsElems elems ++ "]"
  | .obj fields => "\x7b" ++ dumpsFields fields ++ "\x7d"

/-- Comma-separated serialization of array elements. -/
def dumpsElems : List Json → String
  | [] => ""
  | [v] => Json.dumps v
  | v :: rest => Json.dumps v ++ ", " ++ dumpsElems rest

/-- Comma-separated serialization of object members. -/
def dumpsFields : List (String × Json) → String
  | [] => ""
  | [(k, v)] => encodeString k ++ ": " ++ Json.dumps v
  | (k, v) :: rest => encodeString k ++ ": " ++ Json.dumps v ++ ", " ++ dumpsFields rest

end

/-! ### json.loads (src/agent/agent.py line 42) -/

/-- Drop leading JSON whitespace. -/
def skipWs : List Char → List Char
  | [] => []
  | c :: cs =>
    if c = ' ' ∨ c = Char.ofNat 10 ∨ c = Char.ofNat 9 ∨ c = Char.ofNat 13 then
      skipWs cs
    else c :: cs

/-- Parse the body of a JSON string literal (the opening quote already
consumed), handling the escape sequences `json.loads` accepts on the
payloads this development evaluates. -/
def parseStringBody : List Char → Option (List Char × List Char)
  | [] => none
  | c :: cs =>
    if c = '"' then some ([], cs)
    else if c = '\\' then
      match cs with
      | [] => none
      | e :: rest =>
        let esc : Option Char :=
          if e = '"' then some '"'
          else if e = '\\' then some '\\'
          else if e = '/' then some '/'
          else if e = 'n' then some (Char.ofNat 10)
          else if e = 't' then some (Char.ofNat 9)
          else if e = 'r' then some (Char.ofNat 13)
          else if e = 'b' then some (Char.ofNat 8)
          else if e = 'f' then some (Char.ofNat 12)
          else none
        match esc with
        | none => none
        | some d => (parseStringBody rest).map (fun p => (d :: p.1, p.2))
    else (parseStringBody cs).map (fun p => (c :: p.1, p.2))

/-- Split a leading run of decimal digits off a character list. -/
def takeDigits : List Char → List Char × List Char
  | [] => ([], [])
  | c :: cs =>
    if c.isDigit then
      let p := takeDigits cs
      (c :: p.1, p.2)
    else ([], c :: cs)

/-- Numeric value of a digit run. -/
def digitsToNat (ds : List Char) : Nat :=
  ds.foldl (fun a c => a * 10 + (c.toNat - 48)) 0

/-- Parse a JSON integer (optional leading minus). -/
def parseNumber (cs : List Char) : Option (Json × List Char) :=
  match cs with
  | [] => none
  | c :: rest =>
    if c = '-' then
      let p := takeDigits rest
      if p.1 = [] then none
      else some (.num (-(digitsToNat p.1 : Int)), p.2)
    else
      let p := takeDigits (c :: rest)
      if p.1 = [] then none
      else some (.num (digitsToNat p.1 : Int), p.2)

/-- Check that `cs` starts with the literal `lit` and return the remainder. -/
def dropLit : List Char → List Char → Option (List Char)
  | [], cs => some cs
  | _ :: _, [] => none
  | l :: ls, c :: cs => if c = l then dropLit ls cs else none

mutual

/-- Fuel-indexed recursive-descent parser for a JSON value, embedding the
grammar `json.loads` applies to the backend's `arguments` payloads. -/
def parseValue : Nat → List Char → Option (Json × List Char)
  | 0, _ => none
  | fuel + 1, cs =>
    match skipWs cs with
    | [] => none
    | c :: rest =>
      if c = '"' then
        (parseStringBody rest).map (fun p => (.str (String.mk p.1), p.2))
      else if c = '[' then
        parseArrayTail fuel rest
      else if c = Char.ofNat 123 then
        parseObjTail fuel rest
      else if c = 'n' then
        (dropLit ['u', 'l', 'l'] rest).map (fun r => (.null, r))
      else if c = 't' then
        (dropLit ['r', 'u', 'e'] rest).map (fun r => (.bool true, r))
      else if c = 'f' then
        (dropLit ['a', 'l', 's', 'e'] rest).map (fun r => (.bool false, r))
      else
        parseNumber (c :: rest)

/-- Parse what follows the opening bracket of an array. -/
def parseArrayTail : Nat → List Char → Option (Json × List Char)
  | 0, _ => none
  | fuel + 1, cs =>
    match skipWs cs with
    | [] => none
    | c :: rest =>
      if c = ']' then some (.arr [], rest)
      else
        match parseValue fuel (c :: rest) with
        | none => none
        | some (v, after) =>
          (parseElemsTail fuel after).map (fun p => (.arr (v :: p.1), p.2))

/-- Parse `, value`* `]` after one array element. -/
def parseElemsTail : Nat → List Char → Option (List Json × List Char)
  | 0, _ => none
  | fuel + 1, cs =>
    match skipWs cs with
    | [] => none
    | c :: rest =>
      if c = ']' then some ([], rest)
      else if c = ',' then
        match parseValue fuel rest with
        | none => none
        | some (v, after) =>
          (parseElemsTail fuel after).map (fun p => (v :: p.1, p.2))
      else none

/-- Parse what follows the opening brace of an object. -/
def parseObjTail : Nat → List Char → Option (Json × List Char)
  | 0, _ => none
  | fuel + 1, cs =>
    match skipWs cs with
    | [] => none
    | c :: rest =>
      if c = Char.ofNat 125 then some (.obj [], rest)
      else if c = '"' then
        match parseMember fuel rest with
        | none => none
        | some (kv, after) =>
          (parseFieldsTail fuel after).map (fun p => (.obj (kv :: p.1), p.2))
      else none

/-- Parse the remainder of one `"key": value` member, the key's opening quote
already consumed. -/
def parseMember : Nat → List Char → Option ((String × Json) × List Char)
  | 0, _ => none
  | fuel + 1, cs =>
    match parseStringBody cs with
    | none => none
    | some (key, after) =>
      match skipWs after with
      | [] => none
      | c :: rest =>
        if c = ':' then
          (parseValue fuel rest).map (fun p => ((String.mk key, p.1), p.2))
        else none

/-- Parse `, "key": value`* and the closing brace after one object member. -/
def parseFieldsTail : Nat → List Char → Option (List (String × Json) × List Char)
  | 0, _ => none
  | fuel + 1, cs =>
    match skipWs cs with
    | [] => none
    | c :: rest =>
      if c = Char.ofNat 125 then some ([], rest)
      else if c = ',' then
        match skipWs rest with
        | [] => none
        | k :: krest =>
          if k = '"' then
            match parseMember fuel krest with
            | none => none
            | some (kv, after) =>
              (parseFieldsTail fuel after).map (fun p => (kv :: p.1, p.2))
          else none
      else none

end

/-- Embedding of `json.loads`: parse one JSON value and require that only
whitespace follows it. -/
def json_loads (s : String) : Option Json :=
  match parseValue (s.length + 1) s.data with
  | none => none
  | some (v, rest) => if skipWs rest = [] then some v else none

/-- Decode an `arguments` payload into keyword arguments.  Mirrors
`json.loads(tool_call.function.arguments)` followed by the `**args` unpacking
at src/agent/agent.py lines 42 and 45: the text must parse and the parsed
value must be an object, otherwise the round fails with an exception. -/
def decodeArgs (s : String) : Option Args :=
  match json_loads s with
  | some (.obj fields) => some fields
  | _ => none

/-! ### Data model (spec section 3; src/agent/agent.py) -/

/-- One tool-call request from the backend: opaque correlation id, capability
name and raw textual arguments (`tool_call.id`, `tool_call.function.name`,
`tool_call.function.arguments`). -/
structure ToolCall where
  id : String
  name : String
  arguments : String
deriving Repr, DecidableEq

/-- One message of the conversation history.  `tool_calls` is non-empty only
on assistant messages that request tools; `tool_call_id` is present only on
tool-role messages. -/
structure Message where
  role : String
  content : Option String
  tool_calls : List ToolCall
  tool_call_id : Option String
deriving Repr, DecidableEq

/-- The backend's decision message for one round
(`resp.choices[0].message`). -/
structure Decision where
  content : Option String
  tool_calls : List ToolCall
deriving Repr, DecidableEq

/-- The assistant message appended at src/agent/agent.py line 36. -/
def Decision.toMessage (d : Decision) : Message :=
  { role := "assistant", content := d.content,
    tool_calls := d.tool_calls, tool_call_id := none }

/-- An unhandled fault raised by a capability handler. -/
abbrev Fault : Type := String

/-- The exceptions that can escape one round of the dispatch loop, keyed to
the spec's error taxonomy: `ArgumentDecodeError` is the `json.loads` /
unpacking failure at line 42, `UnknownCapability` the `KeyError` from the
`function_map[name]` lookup at line 45, `ArgumentBindingError` the
`TypeError` Python raises at the same line when `(**args)` does not bind the
handler's keyword parameters, and `CapabilityFault` an exception propagating
out of `asyncio.gather` at line 47. -/
inductive DispatchError where
  | argumentDecodeError (payload : String) : DispatchError
  | unknownCapability (name : String) : DispatchError
  | argumentBindingError (name : String) : DispatchError
  | capabilityFault (f : Fault) : DispatchError
deriving Repr, DecidableEq

/-- The keyword-parameter signature of a Python handler: the parameters
without a default value and those with one. -/
structure PyParams where
  required : List String
  optional : List String
deriving Repr, DecidableEq

/-- The body of a capability handler: decoded keyword arguments in,
JSON-representable value out, or a fault.  The handlers' external effects
(processes, network) are outside the embedding; a body is a pure function of
its arguments. -/
abbrev HandlerBody : Type := Args → Except Fault Json

/-- A capability handler as the dispatcher calls it: a Python function value
carries its keyword-parameter signature (checked when the call binds
`**args`) together with its body. -/
structure Handler where
  params : PyParams
  body : HandlerBody

/-- A registry: capability name to handler, `none` meaning the name is
absent (a `KeyError` on lookup). -/
abbrev Registry : Type := String → Option Handler

/-- Python's binding of keyword arguments in `f(**args)`: the call succeeds
iff every required parameter receives a value and every supplied keyword
names a declared parameter; otherwise `TypeError` is raised at the call
site, before the coroutine body exists. -/
def bindKwargs (ps : PyParams) (args : Args) : Bool :=
  ps.required.all (fun p => args.any (fun kv => kv.1 == p))
    && args.all (fun kv => ps.required.contains kv.1 || ps.optional.contains kv.1)

/-- One started task of a round: the originating request, the handler looked
up for it, and its decoded arguments.  Corresponds to the coroutine object
appended to `tasks` at src/agent/agent.py line 45 — created with its
arguments bound, not yet run. -/
structure RoundTask where
  call : ToolCall
  handler : Handler
  args : Args

/-- Running one task: the handler body executes on the bound arguments.
This is what `asyncio.gather` awaits for each coroutine. -/
def runTask (t : RoundTask) : Except Fault Json :=
  t.handler.body t.args

/-- The per-call preparation loop (src/agent/agent.py lines 40-45): for each
request in order, decode its arguments, look the name up in the registry and
create the coroutine `function_map[name](**args)`, which binds the decoded
arguments against the handler's signature.  The first decode, lookup or
binding failure raises and aborts the whole round; no handler body runs
during this phase. -/
def buildTasks (registry : Registry) : List ToolCall → Except DispatchError (List RoundTask)
  | [] => .ok []
  | c :: rest =>
    match decodeArgs c.arguments with
    | none => .error (.argumentDecodeError c.arguments)
    | some args =>
      match registry c.name with
      | none => .error (.unknownCapability c.name)
      | some h =>
        if bindKwargs h.params args then
          (buildTasks registry rest).map (fun ts => ⟨c, h, args⟩ :: ts)
        else .error (.argumentBindingError c.name)

/-- Run the round's tasks, collecting their results in task order, stopping
at the first fault. -/
def gatherResults : List RoundTask → Except Fault (List Json)
  | [] => .ok []
  | t :: ts =>
    match runTask t with
    | .error f => .error f
    | .ok v =>
      match gatherResults ts with
      | .error f => .error f
      | .ok vs => .ok (v :: vs)

/-- The `await asyncio.gather(*tasks)` of line 47: run every task; if any
handler raises, the await re-raises and the round yields no results. -/
def gather (tasks : List RoundTask) : Except DispatchError (List Json) :=
  (gatherResults tasks).mapError DispatchError.capabilityFault

/-- The tool-result message appended for one request and its result
(src/agent/agent.py lines 53-57): role "tool", the request's id as
correlation id, and the handler's return value serialized by
`json.dumps(result, ensure_ascii=False)`. -/
def toolResultMessage (c : ToolCall) (v : Json) : Message :=
  { role := "tool", content := some (Json.dumps v),
    tool_calls := [], tool_call_id := some c.id }

/-- One round of dispatch (src/agent/agent.py lines 37-57): prepare all
tasks, gather their results, and produce the tool-result messages in the
original request order (`for i, tool_call in enumerate(tool_calls):
result = results[i]`). -/
def processRound (registry : Registry) (calls : List ToolCall) :
    Except DispatchError (List Message) := do
  let tasks ← buildTasks registry calls
  let vals ← gather tasks
  return List.zipWith toolResultMessage calls vals

/-- Outcome of the dispatch loop: normal termination with the final history
and the answer text, an exception aborting the session with the history as
appended so far, or fuel exhaustion (the loop still running). -/
inductive LoopResult where
  | done (history : List Message) (answer : String) : LoopResult
  | aborted (history : List Message) (err : DispatchError) : LoopResult
  | outOfFuel (history : List Message) : LoopResult

/-- The dispatch loop `function_call` (src/agent/agent.py lines 23-61),
fuel-indexed.  Each round: one backend request on the current history and the
fixed tool subset; append the decision; if it carries no tool calls, return
its text (empty string when content is absent); otherwise dispatch the round,
append the tool-result messages and loop.  A round exception aborts the
session with the history as it stood. -/
def function_call (backend : List Message → List String → Decision)
    (registry : Registry) (tools : List String) :
    Nat → List Message → LoopResult
  | 0, history => .outOfFuel history
  | fuel + 1, history =>
    let d := backend history tools
    let history' := history ++ [d.toMessage]
    match d.tool_calls with
    | [] => .done history' (d.content.getD "")
    | _ :: _ =>
      match processRound registry d.tool_calls with
      | .error e => .aborted history' e
      | .ok toolMsgs => function_call backend registry tools fuel (history' ++ toolMsgs)

/-! ### The capability registry (src/agent/functions.py) -/

/-- The keys of `function_map` (src/agent/functions.py lines 345-352), in
source order. -/
def function_map_names : List String :=
  ["scan_directory_fuzzing", "scan_sql_injection", "scan_template_injection",
   "scan_subdomain_enumeration", "scan_port_scanning", "fetch_url_content"]

/-- The names of the entries of `all_tools` (src/agent/functions.py lines
14-160), in source order. -/
def all_tools_names : List String :=
  ["scan_directory_fuzzing", "scan_sql_injection", "scan_template_injection",
   "scan_subdomain_enumeration", "scan_port_scanning", "fetch_url_content"]

/-- The keyword-parameter signatures of the six registered handlers
(src/agent/functions.py lines 194, 205, 228, 237, 246 and 330):
`scan_directory_fuzzing(target_url, wordlist=None, threads=None,
match_codes=None)`, `scan_sql_injection(target_url, data=None,
options=None)`, `scan_template_injection(target_url, extra_args=None)`,
`scan_subdomain_enumeration(target_host, extra_args=None)`,
`scan_port_scanning(target, ports=None, scan_type="tcp",
service_detection=False)` and `fetch_url_content(url)`. -/
def function_map_params (name : String) : PyParams :=
  if name = "scan_directory_fuzzing" then
    { required := ["target_url"], optional := ["wordlist", "threads", "match_codes"] }
  else if name = "scan_sql_injection" then
    { required := ["target_url"], optional := ["data", "options"] }
  else if name = "scan_template_injection" then
    { required := ["target_url"], optional := ["extra_args"] }
  else if name = "scan_subdomain_enumeration" then
    { required := ["target_host"], optional := ["extra_args"] }
  else if name = "scan_port_scanning" then
    { required := ["target"], optional := ["ports", "scan_type", "service_detection"] }
  else if name = "fetch_url_content" then
    { required := ["url"], optional := [] }
  else { required := [], optional := [] }

/-- The handler value registered under `name`: its source signature paired
with the abstract body `impl name`. -/
def mkHandler (impl : String → HandlerBody) (name : String) : Handler :=
  { params := function_map_params name, body := impl name }

/-- The `function_map` registry: lookup succeeds exactly for the six
registered names.  The handler bodies perform external I/O, so they are a
parameter `impl`; the lookup structure and the signatures are the
source's. -/
def function_map (impl : String → HandlerBody) : Registry :=
  fun name => if name ∈ function_map_names then some (mkHandler impl name) else none

/-- A request whose decoded arguments bind against its (registered)
capability's signature — the calls for which line 45 creates the coroutine
instead of raising `TypeError`. -/
def bindsOk (r : ToolCall) : Bool :=
  match decodeArgs r.arguments with
  | none => false
  | some args => bindKwargs (function_map_params r.name) args

/-- The tool subset exposed for URL-injection analysis
(src/agent/agent.py lines 69-73): `all_tools` filtered to the three
injection-related names. -/
def url_tools_names : List String :=
  all_tools_names.filter
    (fun n => n ∈ ["scan_sql_injection", "scan_template_injection", "fetch_url_content"])

/-- The tool subset exposed for domain analysis
(src/agent/agent.py lines 82-85). -/
def domain_tools_names : List String :=
  all_tools_names.filter
    (fun n => n ∈ ["scan_subdomain_enumeration", "scan_port_scanning"])

/-! ### Completion-order model for gather

`asyncio.gather` runs the started coroutines concurrently; they complete in
an arbitrary interleaving, and gather reassembles the results positionally.
`completedList` records (index, result) pairs in an arbitrary completion
schedule; `gatherSched` then reads the results back by request index, which
is what `results[i]` does at src/agent/agent.py line 50. -/

/-- Execute the round's tasks in the order given by the completion schedule
`sched`, producing (request index, result) pairs in completion order. -/
def completedList (tasks : List RoundTask) (sched : List Nat) :
    List (Nat × Except Fault Json) :=
  sched.filterMap (fun i => (tasks[i]?).map (fun t => (i, runTask t)))

/-- Recover the result recorded for request index `i`. -/
def lookupCompleted (completed : List (Nat × Except Fault Json)) (i : Nat) :
    Option (Except Fault Json) :=
  (completed.find? (fun p => p.1 = i)).map (fun p => p.2)

/-- Read the recorded results back for a list of request indices, in that
order; fails if some index never completed. -/
def reassemble (completed : List (Nat × Except Fault Json)) :
    List Nat → Option (List (Except Fault Json))
  | [] => some []
  | i :: is =>
    match lookupCompleted completed i with
    | none => none
    | some r => (reassemble completed is).map (fun rs => r :: rs)

/-- Reassemble the round's results in request order from the
completion-ordered record. -/
def gatherSched (tasks : List RoundTask) (sched : List Nat) :
    Option (List (Except Fault Json)) :=
  reassemble (completedList tasks sched) (List.range tasks.length)

/-! ### scan_sql_injection (src/agent/functions.py lines 205-226) and
Sqlmap.stop (src/tools/sqlmap_wrapper.py lines 49-68) -/

/-- The mutable state of the module-level `sqlmap_scanner` singleton that
`scan_sql_injection` manages: the recorded backing API service process.
`none` covers both "attribute `process` absent" and "`process is None`",
which the source treats identically at src/agent/functions.py line 210. -/
structure SqlmapState where
  process : Option Nat
deriving Repr, DecidableEq

/-- Embedding of `Sqlmap.start` (src/tools/sqlmap_wrapper.py lines 30-47)
as it affects the recorded state: the spawned service process (identity
abstracted as `pid`) is stored in `process`. -/
def Sqlmap.start (pid : Nat) (_st : SqlmapState) : SqlmapState :=
  { process := some pid }

/-- Embedding of `Sqlmap.stop` (src/tools/sqlmap_wrapper.py lines 49-68):
when no process is recorded it returns immediately; otherwise it terminates
the process, and the `finally` block clears `process` in every case. -/
def Sqlmap.stop (st : SqlmapState) : SqlmapState :=
  match st.process with
  | none => st
  | some _ => { process := none }

/-- Outcome of the underlying `sqlmap_scanner.scan(...)` await
(src/agent/functions.py lines 215-220), an external collaborator: either a
returned result list or a raised exception. -/
inductive ScanOutcome where
  | ok (results : List Json) : ScanOutcome
  | raises (e : Fault) : ScanOutcome
deriving Repr

/-- What one call of `scan_sql_injection` produced: the final singleton
state, the value returned to the dispatcher, and whether `start` ran. -/
structure SqlScanRun where
  state : SqlmapState
  value : List Json
  started : Bool
deriving Repr

/-- Embedding of `scan_sql_injection` (src/agent/functions.py lines
205-226): start the backing API service only when no process is recorded;
run the scan; on any exception from the scan, stop the service and return
the empty list instead of propagating. -/
def scan_sql_injection (st : SqlmapState) (pid : Nat) (outcome : ScanOutcome) :
    SqlScanRun :=
  let started := st.process = none
  let st1 := if started then Sqlmap.start pid st else st
  match outcome with
  | .ok results => { state := st1, value := results, started := started }
  | .raises _ => { state := Sqlmap.stop st1, value := [], started := started }

/-! ### Call binding of website_full_analysis (src/agent/agent.py line 89;
src/main.py lines 74 and 102) -/

/-- The parameter list of `async def website_full_analysis(progress, website,
use_poc=False)`: three positional-or-keyword parameters, the last with a
default. -/
def website_full_analysis_params : List String :=
  ["progress", "website", "use_poc"]

/-- Number of trailing parameters of `website_full_analysis` that carry a
default value (`use_poc=False`). -/
def website_full_analysis_defaults : Nat := 1

/-- Python's binding of `n` positional arguments against a parameter list
with `defaults` trailing defaults: too many or too few positional arguments
raise `TypeError` at the call site, before the coroutine body can run. -/
def bindPositional (params : List String) (defaults : Nat) (n : Nat) :
    Except String Unit :=
  if n > params.length then .error "TypeError"
  else if n < params.length - defaults then .error "TypeError"
  else .ok ()

/-- Number of positional arguments `main` passes to `website_full_analysis`
at src/main.py line 74: `(progress, website, use_poc_interactive,
max_links)`. -/
def main_interactive_call_argc : Nat := 4

/-- Number of positional arguments `main` passes to `website_full_analysis`
at src/main.py line 102: `(progress, website, poc, max_links)`. -/
def main_cli_call_argc : Nat := 4

instance : Inhabited RoundTask :=
  ⟨⟨⟨"", "", ""⟩, ⟨⟨[], []⟩, fun _ => .ok .null⟩, []⟩⟩

/-! ### Helper lemmas about the dispatcher -/

theorem buildTasks_map_call {registry : Registry} :
    ∀ {calls : List ToolCall} {tasks : List RoundTask},
      buildTasks registry calls = .ok tasks → tasks.map RoundTask.call = calls := by
  intro calls
  induction calls with
  | nil =>
    intro tasks h
    simp [buildTasks] at h
    simp [← h]
  | cons c rest ih =>
    intro tasks h
    simp only [buildTasks] at h
    cases hdec : decodeArgs c.arguments with
    | none => simp [hdec] at h
    | some args =>
      simp only [hdec] at h
      cases hreg : registry c.name with
      | none => simp [hreg] at h
      | some hd =>
        simp only [hreg] at h
        cases hbind : bindKwargs hd.params args with
        | false => simp [hbind] at h
        | true =>
          simp only [hbind, if_true] at h
          cases hrec : buildTasks registry rest with
          | error e => simp [hrec, Except.map] at h
          | ok ts =>
            simp only [hrec, Except.map, Except.ok.injEq] at h
            subst h
            simp [ih hrec]

theorem buildTasks_length {registry : Registry} {calls : List ToolCall}
    {tasks : List RoundTask} (h : buildTasks registry calls = .ok tasks) :
    tasks.length = calls.length := by
  have := buildTasks_map_call h
  calc tasks.length = (tasks.map RoundTask.call).length := by simp
    _ = calls.length := by rw [this]

theorem gatherResults_length :
    ∀ {tasks : List RoundTask} {vals : List Json},
      gatherResults tasks = .ok vals → vals.length = tasks.length := by
  intro tasks
  induction tasks with
  | nil => intro vals h; simp [gatherResults] at h; simp [← h]
  | cons t ts ih =>
    intro vals h
    simp only [gatherResults] at h
    cases hr : runTask t with
    | error f => rw [hr] at h; exact absurd h (by simp)
    | ok v =>
      rw [hr] at h
      cases hrec : gatherResults ts with
      | error f => rw [hrec] at h; exact absurd h (by simp)
      | ok vs =>
        rw [hrec] at h
        simp at h
        subst h
        simp [ih hrec]

theorem gatherResults_get :
    ∀ {tasks : List RoundTask} {vals : List Json},
      gatherResults tasks = .ok vals →
      ∀ i (h1 : i < tasks.length) (h2 : i < vals.length),
        runTask (tasks.get ⟨i, h1⟩) = .ok (vals.get ⟨i, h2⟩) := by
  intro tasks
  induction tasks with
  | nil => intro vals _ i h1; exact absurd h1 (by simp)
  | cons t ts ih =>
    intro vals h i h1 h2
    simp only [gatherResults] at h
    cases hr : runTask t with
    | error f => rw [hr] at h; exact absurd h (by simp)
    | ok v =>
      rw [hr] at h
      cases hrec : gatherResults ts with
      | error f => rw [hrec] at h; exact absurd h (by simp)
      | ok vs =>
        rw [hrec] at h
        simp at h
        subst h
        cases i with
        | zero => simpa using hr
        | succ j =>
          exact ih hrec j (by simpa using h1) (by simpa using h2)

theorem gatherResults_error_of_mem {tasks : List RoundTask} {t : RoundTask}
    {f : Fault} (hmem : t ∈ tasks) (hf : runTask t = .error f) :
    ∃ f', gatherResults tasks = .error f' := by
  induction tasks with
  | nil => exact absurd hmem (by simp)
  | cons u ts ih =>
    rcases List.mem_cons.mp hmem with h | h
    · subst h
      exact ⟨f, by simp [gatherResults, hf]⟩
    · rcases ih h with ⟨f', hf'⟩
      cases hu : runTask u with
      | error g => exact ⟨g, by simp [gatherResults, hu]⟩
      | ok v => exact ⟨f', by simp [gatherResults, hu, hf']⟩

theorem lookupCompleted_completedList {tasks : List RoundTask} :
    ∀ {sched : List Nat} {i : Nat} (hi : i < tasks.length), i ∈ sched →
      lookupCompleted (completedList tasks sched) i
        = some (runTask (tasks.get ⟨i, hi⟩)) := by
  intro sched
  induction sched with
  | nil => intro i _ hmem; exact absurd hmem (by simp)
  | cons j rest ih =>
    intro i hi hmem
    cases hj : tasks[j]? with
    | none =>
      have hij : i ≠ j := by
        intro h
        subst h
        rw [List.getElem?_eq_none_iff] at hj
        omega
      have : i ∈ rest := by
        rcases List.mem_cons.mp hmem with h | h
        · exact absurd h hij
        · exact h
      simp only [completedList, List.filterMap_cons, hj, Option.map_none']
      exact ih hi this
    | some t =>
      by_cases hij : i = j
      · subst hij
        have : t = tasks.get ⟨i, hi⟩ := by
          have := List.getElem?_eq_getElem (l := tasks) (n := i) hi
          rw [hj] at this
          simp at this
          simp [this]
        subst this
        simp [completedList, List.filterMap_cons, hj, lookupCompleted, List.find?]
      · have : i ∈ rest := by
          rcases List.mem_cons.mp hmem with h | h
          · exact absurd h hij
          · exact h
        have tail := ih hi this
        simp only [completedList, List.filterMap_cons, hj, Option.map_some'] at *
        simp only [lookupCompleted, List.find?] at *
        have : (decide (j = i)) = false := by simp [Ne.symm hij]
        rw [this]
        exact tail

theorem reassemble_of_lookup {completed : List (Nat × Except Fault Json)}
    {f : Nat → Except Fault Json} :
    ∀ {idxs : List Nat},
      (∀ i ∈ idxs, lookupCompleted completed i = some (f i)) →
      reassemble completed idxs = some (idxs.map f) := by
  intro idxs
  induction idxs with
  | nil => intro _; simp [reassemble]
  | cons i is ih =>
    intro h
    have hi := h i (by simp)
    have hrest := ih (fun j hj => h j (List.mem_cons_of_mem _ hj))
    simp [reassemble, hi, hrest]

theorem gatherSched_eq_of_complete {tasks : List RoundTask} {sched : List Nat}
    (hsched : ∀ i, i < tasks.length → i ∈ sched) :
    gatherSched tasks sched = some (tasks.map runTask) := by
  have hlook : ∀ i ∈ List.range tasks.length,
      lookupCompleted (completedList tasks sched) i
        = some (runTask (tasks.getD i default)) := by
    intro i hi
    have hilt : i < tasks.length := List.mem_range.mp hi
    rw [lookupCompleted_completedList hilt (hsched i hilt)]
    congr 1
    rw [List.getD_eq_getElem?_getD, List.getElem?_eq_getElem hilt]
    simp
  have := reassemble_of_lookup (f := fun i => runTask (tasks.getD i default)) hlook
  rw [gatherSched, this]
  congr 1
  apply List.ext_get
  · simp
  · intro i h1 h2
    simp only [List.get_eq_getElem, List.getElem_map, List.getElem_range]
    congr 1
    rw [List.getD_eq_getElem?_getD, List.getElem?_eq_getElem (by simpa using h2)]
    simp

/-! ### Text fidelity of the serializer -/

/-- A character that `json.dumps` never escapes: not the quote, not the
backslash, and not a control character below U+0020.  Every non-ASCII
character is plain. -/
def plainChar (c : Char) : Bool :=
  c ≠ '"' && c ≠ '\\' && 32 ≤ c.toNat

theorem escapeChar_plain {c : Char} (h : plainChar c = true) :
    escapeChar c = String.mk [c] := by
  simp only [plainChar, Bool.and_eq_true, decide_eq_true_eq, ne_eq,
    decide_not, Bool.not_eq_true', decide_eq_false_iff_not] at h
  obtain ⟨⟨hq, hb⟩, hc⟩ := h
  have h10 : ¬ c.toNat = 10 := by omega
  have h9 : ¬ c.toNat = 9 := by omega
  have h13 : ¬ c.toNat = 13 := by omega
  have h8 : ¬ c.toNat = 8 := by omega
  have h12 : ¬ c.toNat = 12 := by omega
  have h32 : ¬ c.toNat < 32 := by omega
  simp only [escapeChar, hq, hb, h10, h9, h13, h8, h12, h32, if_false]

theorem escapeChars_plain :
    ∀ {l : List Char}, (∀ c ∈ l, plainChar c = true) →
      escapeChars l = String.mk l := by
  intro l
  induction l with
  | nil => intro _; rfl
  | cons c cs ih =>
    intro h
    have hc := h c (by simp)
    have hcs := ih (fun x hx => h x (List.mem_cons_of_mem _ hx))
    show escapeChar c ++ escapeChars cs = String.mk (c :: cs)
    rw [escapeChar_plain hc, hcs]
    rfl

theorem encodeString_plain {s : String}
    (h : ∀ c ∈ s.data, plainChar c = true) :
    encodeString s = "\"" ++ s ++ "\"" := by
  show "\"" ++ escapeChars s.data ++ "\"" = "\"" ++ s ++ "\""
  rw [escapeChars_plain h]

theorem dumps_str_plain {s : String}
    (h : ∀ c ∈ s.data, plainChar c = true) :
    Json.dumps (.str s) = "\"" ++ s ++ "\"" := by
  rw [Json.dumps, encodeString_plain h]

/-! ### Step lemmas for the loop -/

theorem function_call_step_done
    {backend : List Message → List String → Decision} {registry : Registry}
    {tools : List String} {fuel : Nat} {history : List Message} {d : Decision}
    (hd : backend history tools = d) (h0 : d.tool_calls = []) :
    function_call backend registry tools (fuel + 1) history
      = .done (history ++ [d.toMessage]) (d.content.getD "") := by
  subst hd
  simp only [function_call, h0]

theorem function_call_step_abort
    {backend : List Message → List String → Decision} {registry : Registry}
    {tools : List String} {fuel : Nat} {history : List Message} {d : Decision}
    {e : DispatchError}
    (hd : backend history tools = d) (hne : d.tool_calls ≠ [])
    (hround : processRound registry d.tool_calls = .error e) :
    function_call backend registry tools (fuel + 1) history
      = .aborted (history ++ [d.toMessage]) e := by
  subst hd
  rcases List.exists_cons_of_ne_nil hne with ⟨c, cs, hcalls⟩
  rw [hcalls] at hround
  simp only [function_call, hcalls, hround]

theorem function_call_step_continue
    {backend : List Message → List String → Decision} {registry : Registry}
    {tools : List String} {fuel : Nat} {history : List Message} {d : Decision}
    {toolMsgs : List Message}
    (hd : backend history tools = d) (hne : d.tool_calls ≠ [])
    (hround : processRound registry d.tool_calls = .ok toolMsgs) :
    function_call backend registry tools (fuel + 1) history
      = function_call backend registry tools fuel
          (history ++ [d.toMessage] ++ toolMsgs) := by
  subst hd
  rcases List.exists_cons_of_ne_nil hne with ⟨c, cs, hcalls⟩
  rw [hcalls] at hround
  simp only [function_call, hcalls, hround, List.append_assoc]

theorem processRound_ok_elim {registry : Registry} {calls : List ToolCall}
    {msgs : List Message} (h : processRound registry calls = .ok msgs) :
    ∃ tasks vals, buildTasks registry calls = .ok tasks ∧
      gatherResults tasks = .ok vals ∧
      msgs = List.zipWith toolResultMessage calls vals ∧
      vals.length = calls.length := by
  unfold processRound at h
  cases hb : buildTasks registry calls with
  | error e =>
    rw [hb] at h
    simp [Bind.bind, Except.bind] at h
  | ok tasks =>
    rw [hb] at h
    simp only [Bind.bind, Except.bind] at h
    cases hg : gatherResults tasks with
    | error f =>
      rw [show gather tasks = .error (.capabilityFault f) by
            simp [gather, hg, Except.mapError]] at h
      simp at h
    | ok vals =>
      rw [show gather tasks = .ok vals by simp [gather, hg, Except.mapError]] at h
      simp only [Pure.pure, Except.pure, Except.ok.injEq] at h
      refine ⟨tasks, vals, rfl, hg, h.symm, ?_⟩
      rw [gatherResults_length hg, buildTasks_length hb]

theorem processRound_of_parts {registry : Registry} {calls : List ToolCall}
    {tasks : List RoundTask} {vals : List Json}
    (hb : buildTasks registry calls = .ok tasks)
    (hg : gatherResults tasks = .ok vals) :
    processRound registry calls = .ok (List.zipWith toolResultMessage calls vals) := by
  unfold processRound
  rw [hb]
  simp only [Bind.bind, Except.bind]
  rw [show gather tasks = .ok vals by simp [gather, hg, Except.mapError]]
  rfl

theorem processRound_error_of_buildTasks {registry : Registry}
    {calls : List ToolCall} {e : DispatchError}
    (hb : buildTasks registry calls = .error e) :
    processRound registry calls = .error e := by
  unfold processRound
  rw [hb]
  rfl

theorem processRound_error_of_fault {registry : Registry}
    {calls : List ToolCall} {tasks : List RoundTask} {f : Fault}
    (hb : buildTasks registry calls = .ok tasks)
    (hg : gatherResults tasks = .error f) :
    processRound registry calls = .error (.capabilityFault f) := by
  unfold processRound
  rw [hb]
  simp only [Bind.bind, Except.bind]
  rw [show gather tasks = .error (.capabilityFault f) by
        simp [gather, hg, Except.mapError]]

theorem zipWith_const_left {α β γ : Type} (f : α → γ) :
    ∀ (l1 : List α) (l2 : List β), l2.length = l1.length →
      List.zipWith (fun a _ => f a) l1 l2 = l1.map f := by
  intro l1
  induction l1 with
  | nil => intro l2 _; simp
  | cons a as ih =>
    intro l2 hlen
    cases l2 with
    | nil => simp at hlen
    | cons b bs =>
      simp only [List.zipWith_cons_cons, List.map_cons]
      rw [ih bs (by simpa using hlen)]

theorem mem_zipWith_elim {α β γ : Type} {g : α → β → γ} {x : γ} :
    ∀ {l1 : List α} {l2 : List β}, x ∈ List.zipWith g l1 l2 →
      ∃ a b, a ∈ l1 ∧ b ∈ l2 ∧ x = g a b := by
  intro l1
  induction l1 with
  | nil => intro l2 h; simp at h
  | cons a as ih =>
    intro l2 h
    cases l2 with
    | nil => simp at h
    | cons b bs =>
      rcases List.mem_cons.mp h with h | h
      · exact ⟨a, b, by simp, by simp, h⟩
      · rcases ih h with ⟨a', b', ha, hb, hx⟩
        exact ⟨a', b', List.mem_cons_of_mem _ ha, List.mem_cons_of_mem _ hb, hx⟩

/-! ### Claim theorems -/

/-- C1: for every round in which the decision message carries a non-empty
list of tool-call requests (with per-round-unique ids, as the data model
stipulates), a successful round appends exactly one tool-role message per
request before the backend is invoked again, and each appended message's
correlation id equals the id of exactly one request of that round (a
bijection between requests and appended tool results). -/
theorem c1_round_result_bijection
    {backend : List Message → List String → Decision} {registry : Registry}
    {tools : List String} {fuel : Nat} {history : List Message} {d : Decision}
    {toolMsgs : List Message}
    (hd : backend history tools = d) (hne : d.tool_calls ≠ [])
    (hids : (d.tool_calls.map ToolCall.id).Nodup)
    (hround : processRound registry d.tool_calls = .ok toolMsgs) :
    function_call backend registry tools (fuel + 1) history
      = function_call backend registry tools fuel
          (history ++ [d.toMessage] ++ toolMsgs)
    ∧ toolMsgs.length = d.tool_calls.length
    ∧ (∀ m ∈ toolMsgs, m.role = "tool")
    ∧ toolMsgs.map Message.tool_call_id
        = d.tool_calls.map (fun r => some r.id)
    ∧ ∀ m ∈ toolMsgs,
        d.tool_calls.countP (fun r => decide (some r.id = m.tool_call_id)) = 1 := by
  obtain ⟨tasks, vals, hb, hg, hmsgs, hlen⟩ := processRound_ok_elim hround
  have hmap : toolMsgs.map Message.tool_call_id
      = d.tool_calls.map (fun r => some r.id) := by
    rw [hmsgs, List.map_zipWith]
    exact zipWith_const_left (fun r : ToolCall => some r.id) d.tool_calls vals hlen
  refine ⟨function_call_step_continue hd hne hround, ?_, ?_, hmap, ?_⟩
  · rw [hmsgs, List.length_zipWith, hlen, Nat.min_self]
  · intro m hm
    rcases mem_zipWith_elim (hmsgs ▸ hm) with ⟨r, v, _, _, hx⟩
    rw [hx]
    rfl
  · intro m hm
    rcases mem_zipWith_elim (hmsgs ▸ hm) with ⟨r, v, hr, _, hx⟩
    have hmid : m.tool_call_id = some r.id := by rw [hx]; rfl
    have hcount : (d.tool_calls.map ToolCall.id).count r.id = 1 :=
      List.count_eq_one_of_mem hids (List.mem_map_of_mem ToolCall.id hr)
    calc d.tool_calls.countP (fun r' => decide (some r'.id = m.tool_call_id))
        = d.tool_calls.countP (fun r' => r'.id == r.id) := by
          apply List.countP_congr
          intro r' _
          rw [hmid]
          by_cases h : r'.id = r.id <;> simp [h]
      _ = (d.tool_calls.map ToolCall.id).countP (fun x => x == r.id) := by
          rw [List.countP_map]
          rfl
      _ = 1 := hcount

theorem buildTasks_decode_failure {impl : String → HandlerBody} :
    ∀ {pre : List ToolCall} {c : ToolCall} {post : List ToolCall},
      (∀ r ∈ pre, (decodeArgs r.arguments).isSome ∧ r.name ∈ function_map_names
        ∧ bindsOk r = true) →
      decodeArgs c.arguments = none →
      buildTasks (function_map impl) (pre ++ c :: post)
        = .error (.argumentDecodeError c.arguments) := by
  intro pre
  induction pre with
  | nil =>
    intro c post _ hdec
    simp [buildTasks, hdec]
  | cons r rest ih =>
    intro c post hpre hdec
    obtain ⟨hrdec, hrname, hrbind⟩ := hpre r (by simp)
    rcases Option.isSome_iff_exists.mp hrdec with ⟨args, hargs⟩
    have hreg : function_map impl r.name = some (mkHandler impl r.name) := by
      simp [function_map, hrname]
    have hbind : bindKwargs (function_map_params r.name) args = true := by
      simp only [bindsOk, hargs] at hrbind
      exact hrbind
    have hrec := @ih c post (fun x hx => hpre x (List.mem_cons_of_mem _ hx)) hdec
    simp [buildTasks, hargs, hreg, mkHandler, hbind, hrec, Except.map]

theorem buildTasks_unknown_name {impl : String → HandlerBody} :
    ∀ {pre : List ToolCall} {c : ToolCall} {post : List ToolCall},
      (∀ r ∈ pre, (decodeArgs r.arguments).isSome ∧ r.name ∈ function_map_names
        ∧ bindsOk r = true) →
      (decodeArgs c.arguments).isSome →
      c.name ∉ function_map_names →
      buildTasks (function_map impl) (pre ++ c :: post)
        = .error (.unknownCapability c.name) := by
  intro pre
  induction pre with
  | nil =>
    intro c post _ hdec hname
    rcases Option.isSome_iff_exists.mp hdec with ⟨args, hargs⟩
    have hreg : function_map impl c.name = none := by
      simp [function_map, hname]
    simp [buildTasks, hargs, hreg]
  | cons r rest ih =>
    intro c post hpre hdec hname
    obtain ⟨hrdec, hrname, hrbind⟩ := hpre r (by simp)
    rcases Option.isSome_iff_exists.mp hrdec with ⟨args, hargs⟩
    have hreg : function_map impl r.name = some (mkHandler impl r.name) := by
      simp [function_map, hrname]
    have hbind : bindKwargs (function_map_params r.name) args = true := by
      simp only [bindsOk, hargs] at hrbind
      exact hrbind
    have hrec := @ih c post (fun x hx => hpre x (List.mem_cons_of_mem _ hx)) hdec hname
    simp [buildTasks, hargs, hreg, mkHandler, hbind, hrec, Except.map]

/-- C3: when the backend's decision carries no tool calls, the loop
terminates in that round and returns the decision's text content, the empty
string when the content is absent. -/
theorem c3_no_tool_calls_terminates
    {backend : List Message → List String → Decision} {registry : Registry}
    {tools : List String} {fuel : Nat} {history : List Message} {d : Decision}
    (hd : backend history tools = d) (h0 : d.tool_calls = []) :
    function_call backend registry tools (fuel + 1) history
      = .done (history ++ [d.toMessage]) (d.content.getD "") :=
  function_call_step_done hd h0

/-- C4: if any handler started in a round raises an unhandled fault, the
fault propagates out of the dispatch (as `asyncio.gather` re-raises it) and
aborts the round: the loop aborts with the history holding only the decision
message, so no tool-result message from that round — neither the failing
call's nor any sibling's — is appended. -/
theorem c4_handler_fault_aborts_round
    {backend : List Message → List String → Decision} {registry : Registry}
    {tools : List String} {fuel : Nat} {history : List Message} {d : Decision}
    {tasks : List RoundTask} {t : RoundTask} {f : Fault}
    (hd : backend history tools = d) (hne : d.tool_calls ≠ [])
    (hb : buildTasks registry d.tool_calls = .ok tasks)
    (ht : t ∈ tasks) (hf : runTask t = .error f) :
    ∃ f', processRound registry d.tool_calls = .error (.capabilityFault f')
      ∧ function_call backend registry tools (fuel + 1) history
          = .aborted (history ++ [d.toMessage]) (.capabilityFault f') := by
  rcases gatherResults_error_of_mem ht hf with ⟨f', hf'⟩
  have hpr := processRound_error_of_fault hb hf'
  exact ⟨f', hpr, function_call_step_abort hd hne hpr⟩

/-! ### Fixtures for concrete runs -/

/-- A concrete family of handler bodies for concrete runs: each capability
returns its own name, marked as executed. -/
def cexImpl : String → HandlerBody :=
  fun n _ => .ok (.str (n ++ " executed"))

/-- A request for `scan_port_scanning` — a name inside `function_map` but
outside the URL-injection flavor's exposed subset — whose arguments carry
the handler's required `target` parameter, so the call at line 45 binds. -/
def cexCall : ToolCall :=
  { id := "cex_1", name := "scan_port_scanning",
    arguments := "\x7b\"target\": \"192.0.2.1\"\x7d" }

/-- A backend that requests `cexCall` on the seed history and then stops. -/
def cexBackend : List Message → List String → Decision :=
  fun history _ =>
    if history.length = 0 then { content := none, tool_calls := [cexCall] }
    else { content := some "finished", tool_calls := [] }

/-- The tool-result message the dispatcher appends for `cexCall`. -/
def cexMsg : Message :=
  { role := "tool", content := some "\"scan_port_scanning executed\"",
    tool_calls := [], tool_call_id := some "cex_1" }

/-- C5 counterexample: the code never checks the exposed subset at dispatch
time.  Under the URL-injection flavor (`tools = url_tools_names`) a decision
naming `scan_port_scanning` — registered in `function_map` but outside the
exposed subset — is not a fatal error: its handler executes, its tool-result
message is appended, and the loop completes normally. -/
theorem c5_counterexample :
    "scan_port_scanning" ∉ url_tools_names
    ∧ "scan_port_scanning" ∈ function_map_names
    ∧ processRound (function_map cexImpl) [cexCall] = .ok [cexMsg]
    ∧ function_call cexBackend (function_map cexImpl) url_tools_names 2 []
        = .done
            [Decision.toMessage { content := none, tool_calls := [cexCall] },
             cexMsg,
             Decision.toMessage { content := some "finished", tool_calls := [] }]
            "finished" := by
  refine ⟨by decide, by decide, by rfl, ?_⟩
  rfl

/-- C5 (amended): a decision requesting a capability name outside the
registry (`function_map`) entirely is a fatal error — the `KeyError` from
the lookup, the embedding's `UnknownCapability`: the request is never
silently dropped, no handler body of any implementation is executed (the
outcome is the same for every handler implementation `impl`), and no
tool-result message for that round is appended.  A name inside the registry
but outside the exposed subset, however, is dispatched normally
(see the counterexample). -/
theorem c5_amended_unknown_capability
    {backend : List Message → List String → Decision} {tools : List String}
    {fuel : Nat} {history : List Message} {d : Decision}
    {pre : List ToolCall} {c : ToolCall} {post : List ToolCall}
    (hd : backend history tools = d)
    (hcalls : d.tool_calls = pre ++ c :: post)
    (hpre : ∀ r ∈ pre, (decodeArgs r.arguments).isSome ∧ r.name ∈ function_map_names
      ∧ bindsOk r = true)
    (hdec : (decodeArgs c.arguments).isSome)
    (hname : c.name ∉ function_map_names) :
    ∀ impl : String → HandlerBody,
      processRound (function_map impl) d.tool_calls
          = .error (.unknownCapability c.name)
      ∧ function_call backend (function_map impl) tools (fuel + 1) history
          = .aborted (history ++ [d.toMessage]) (.unknownCapability c.name) := by
  intro impl
  have hb : buildTasks (function_map impl) d.tool_calls
      = .error (.unknownCapability c.name) := by
    rw [hcalls]
    exact buildTasks_unknown_name hpre hdec hname
  have hpr := processRound_error_of_buildTasks hb
  have hne : d.tool_calls ≠ [] := by
    rw [hcalls]
    simp
  exact ⟨hpr, function_call_step_abort hd hne hpr⟩

/-- C6: if some request's arguments payload in a round does not decode to a
structured mapping (such as the text "\x7b"), while the requests before it
are well-formed (they decode, name registered capabilities and bind their
parameters), decoding fails fatally for the whole round before any
handler executes: the outcome is the same `ArgumentDecodeError` abort for
every handler implementation `impl` — no handler body affects it — and no
tool-result message is appended (the aborted history carries only the
decision). -/
theorem c6_decode_failure_fatal
    {backend : List Message → List String → Decision} {tools : List String}
    {fuel : Nat} {history : List Message} {d : Decision}
    {pre : List ToolCall} {c : ToolCall} {post : List ToolCall}
    (hd : backend history tools = d)
    (hcalls : d.tool_calls = pre ++ c :: post)
    (hpre : ∀ r ∈ pre, (decodeArgs r.arguments).isSome ∧ r.name ∈ function_map_names
      ∧ bindsOk r = true)
    (hdec : decodeArgs c.arguments = none) :
    ∀ impl : String → HandlerBody,
      processRound (function_map impl) d.tool_calls
          = .error (.argumentDecodeError c.arguments)
      ∧ function_call backend (function_map impl) tools (fuel + 1) history
          = .aborted (history ++ [d.toMessage]) (.argumentDecodeError c.arguments) := by
  intro impl
  have hb : buildTasks (function_map impl) d.tool_calls
      = .error (.argumentDecodeError c.arguments) := by
    rw [hcalls]
    exact buildTasks_decode_failure hpre hdec
  have hpr := processRound_error_of_buildTasks hb
  have hne : d.tool_calls ≠ [] := by
    rw [hcalls]
    simp
  exact ⟨hpr, function_call_step_abort hd hne hpr⟩

theorem get_zipWith {α β γ : Type} {g : α → β → γ} :
    ∀ {l1 : List α} {l2 : List β} (i : Nat) (h1 : i < l1.length)
      (h2 : i < l2.length) (h : i < (List.zipWith g l1 l2).length),
      (List.zipWith g l1 l2).get ⟨i, h⟩ = g (l1.get ⟨i, h1⟩) (l2.get ⟨i, h2⟩) := by
  intro l1
  induction l1 with
  | nil => intro l2 i h1; exact absurd h1 (by simp)
  | cons a as ih =>
    intro l2 i h1 h2 h
    cases l2 with
    | nil => exact absurd h2 (by simp)
    | cons b bs =>
      cases i with
      | zero => rfl
      | succ j =>
        exact ih j (by simpa using h1) (by simpa using h2) (by simpa using h)

/-- C2: the tool-result messages of a round are produced in the original
request order, and the content appended at request r's position carries r's
own handler's return value; this is independent of the order in which the
concurrently running handlers complete, since reassembling the results under
any completion schedule that finishes every task (`gatherSched`) yields the
same request-ordered result list. -/
theorem c2_request_order_independent_of_completion
    {registry : Registry} {calls : List ToolCall} {tasks : List RoundTask}
    {vals : List Json} {sched : List Nat}
    (hb : buildTasks registry calls = .ok tasks)
    (hsched : ∀ i, i < tasks.length → i ∈ sched)
    (hg : gatherResults tasks = .ok vals) :
    gatherSched tasks sched = some (tasks.map runTask)
    ∧ processRound registry calls = .ok (List.zipWith toolResultMessage calls vals)
    ∧ vals.length = calls.length
    ∧ tasks.map RoundTask.call = calls
    ∧ ∀ i (h1 : i < calls.length) (h3 : i < tasks.length) (h2 : i < vals.length)
        (hm : i < (List.zipWith toolResultMessage calls vals).length),
        runTask (tasks.get ⟨i, h3⟩) = .ok (vals.get ⟨i, h2⟩)
        ∧ (tasks.get ⟨i, h3⟩).call = calls.get ⟨i, h1⟩
        ∧ (List.zipWith toolResultMessage calls vals).get ⟨i, hm⟩
            = toolResultMessage (calls.get ⟨i, h1⟩) (vals.get ⟨i, h2⟩) := by
  have hmap := buildTasks_map_call hb
  refine ⟨gatherSched_eq_of_complete hsched, processRound_of_parts hb hg, ?_, hmap, ?_⟩
  · rw [gatherResults_length hg, buildTasks_length hb]
  · intro i h1 h3 h2 hm
    refine ⟨gatherResults_get hg i h3 h2, ?_, get_zipWith i h1 h2 hm⟩
    simp only [List.get_eq_getElem]
    rw [← List.getElem_map (f := RoundTask.call) (h := by simpa using h3)]
    simp only [hmap]

/-- A request the looping backend emits in every round, its arguments
carrying the handler's required `url` parameter. -/
def loopCall : ToolCall :=
  { id := "call_0", name := "fetch_url_content",
    arguments := "\x7b\"url\": \"http://t/\"\x7d" }

/-- A backend that requests a tool call in every round, never stopping. -/
def loopBackend : List Message → List String → Decision :=
  fun _ _ => { content := none, tool_calls := [loopCall] }

/-- Handler bodies that always succeed with `null`. -/
def nullImpl : String → HandlerBody := fun _ _ => .ok .null

/-- The tool-result message of each round of the looping run. -/
def loopMsg : Message :=
  { role := "tool", content := some "null", tool_calls := [], tool_call_id := some "call_0" }

/-- C7: the loop places no cap on the number of rounds: with a backend whose
every decision carries a tool call (each round dispatching successfully),
the loop never terminates — for every fuel bound it is still running. -/
theorem c7_no_round_cap_nontermination :
    ∀ (fuel : Nat) (history : List Message), ∃ h',
      function_call loopBackend (function_map nullImpl) url_tools_names fuel history
        = .outOfFuel h' := by
  intro fuel
  induction fuel with
  | zero => intro history; exact ⟨history, rfl⟩
  | succ n ih =>
    intro history
    have hround : processRound (function_map nullImpl)
        (Decision.tool_calls { content := none, tool_calls := [loopCall] })
        = .ok [loopMsg] := by rfl
    have hstep : function_call loopBackend (function_map nullImpl) url_tools_names (n + 1)
        history
        = function_call loopBackend (function_map nullImpl) url_tools_names n
            (history ++ [Decision.toMessage { content := none, tool_calls := [loopCall] }]
              ++ [loopMsg]) :=
      function_call_step_continue rfl (by simp [loopBackend]) hround
    rcases ih (history ++ [Decision.toMessage { content := none, tool_calls := [loopCall] }]
        ++ [loopMsg]) with ⟨h', hh⟩
    exact ⟨h', by rw [hstep]; exact hh⟩

/-- C8: for every completed handler, the tool-role message appended at its
request's position carries exactly the `json.dumps`-serialization of the
handler's return value, and the serializer preserves plain text verbatim:
a string all of whose characters are unescaped ones (which includes every
non-ASCII character) is emitted unchanged between quotes, neither escaped
nor lost. -/
theorem c8_serialized_content_fidelity
    {registry : Registry} {calls : List ToolCall} {tasks : List RoundTask}
    {vals : List Json}
    (hb : buildTasks registry calls = .ok tasks)
    (hg : gatherResults tasks = .ok vals) :
    processRound registry calls = .ok (List.zipWith toolResultMessage calls vals)
    ∧ (∀ r v, (toolResultMessage r v).content = some (Json.dumps v))
    ∧ (∀ i (h3 : i < tasks.length) (h2 : i < vals.length),
        runTask (tasks.get ⟨i, h3⟩) = .ok (vals.get ⟨i, h2⟩))
    ∧ ∀ s : String, (∀ ch ∈ s.data, plainChar ch = true) →
        Json.dumps (.str s) = "\"" ++ s ++ "\"" :=
  ⟨processRound_of_parts hb hg, fun _ _ => rfl,
   fun i h3 h2 => gatherResults_get hg i h3 h2,
   fun _ hs => dumps_str_plain hs⟩

/-- C9: `scan_sql_injection` never propagates a fault of the underlying scan
to the dispatcher: whenever the scan raises, the function stops the backing
sqlmap API service (leaving no recorded process) and returns the empty list;
and it starts the singleton backing service exactly when no service process
is currently recorded. -/
theorem c9_sql_injection_contains_faults
    (st : SqlmapState) (pid : Nat) (oc : ScanOutcome) (e : Fault)
    (h : oc = .raises e) :
    ((scan_sql_injection st pid oc).value = []
      ∧ (scan_sql_injection st pid oc).state.process = none)
    ∧ ∀ (st' : SqlmapState) (oc' : ScanOutcome),
        ((scan_sql_injection st' pid oc').started = true ↔ st'.process = none) := by
  constructor
  · subst h
    unfold scan_sql_injection Sqlmap.start Sqlmap.stop
    obtain ⟨proc⟩ := st
    cases proc <;> simp
  · intro st' oc'
    unfold scan_sql_injection
    cases oc' <;> simp

/-- C10: `website_full_analysis` accepts at most three positional arguments
(progress, website, use_poc), while both full-site-scan invocations in
`main` pass four positional arguments (including max_links); Python's
argument binding therefore raises `TypeError` at each call site, before any
coroutine body — any scanning work — begins. -/
theorem c10_full_analysis_arity_mismatch :
    website_full_analysis_params.length = 3
    ∧ bindPositional website_full_analysis_params website_full_analysis_defaults 3 = .ok ()
    ∧ bindPositional website_full_analysis_params website_full_analysis_defaults 2 = .ok ()
    ∧ main_interactive_call_argc = 4
    ∧ main_cli_call_argc = 4
    ∧ bindPositional website_full_analysis_params website_full_analysis_defaults
        main_interactive_call_argc = .error "TypeError"
    ∧ bindPositional website_full_analysis_params website_full_analysis_defaults
        main_cli_call_argc = .error "TypeError" := by
  refine ⟨rfl, rfl, rfl, rfl, rfl, rfl, rfl⟩

/-! ### Concrete witnesses -/

/-- Two well-formed requests with distinct correlation ids, each carrying
its handler's required parameter. -/
def witCallA : ToolCall :=
  { id := "call_a", name := "scan_sql_injection",
    arguments := "\x7b\"target_url\": \"http://x/?id=1\"\x7d" }

/-- Second request of the witness round. -/
def witCallB : ToolCall :=
  { id := "call_b", name := "fetch_url_content",
    arguments := "\x7b\"url\": \"http://x/\"\x7d" }

/-- Decoded arguments of `witCallA`. -/
def witArgsA : Args := [("target_url", Json.str "http://x/?id=1")]

/-- Decoded arguments of `witCallB`. -/
def witArgsB : Args := [("url", Json.str "http://x/")]

/-- The witness decision: one round requesting both calls. -/
def witDecision : Decision :=
  { content := none, tool_calls := [witCallA, witCallB] }

/-- A backend issuing the witness round once, then stopping. -/
def witBackend : List Message → List String → Decision :=
  fun history _ =>
    if history.length = 0 then witDecision
    else { content := some "done", tool_calls := [] }

/-- Handler bodies that return the capability's own name. -/
def witImpl : String → HandlerBody := fun n _ => .ok (.str n)

/-- Expected tool-result message for `witCallA`. -/
def witMsgA : Message :=
  { role := "tool", content := some "\"scan_sql_injection\"",
    tool_calls := [], tool_call_id := some "call_a" }

/-- Expected tool-result message for `witCallB`. -/
def witMsgB : Message :=
  { role := "tool", content := some "\"fetch_url_content\"",
    tool_calls := [], tool_call_id := some "call_b" }

/-- Witness for C1 at the concrete two-request round. -/
theorem c1_round_result_bijection_witness :
    function_call witBackend (function_map witImpl) url_tools_names 2 []
      = function_call witBackend (function_map witImpl) url_tools_names 1
          ([] ++ [witDecision.toMessage] ++ [witMsgA, witMsgB])
    ∧ [witMsgA, witMsgB].map Message.tool_call_id
        = witDecision.tool_calls.map (fun r => some r.id) := by
  have h := @c1_round_result_bijection witBackend (function_map witImpl)
    url_tools_names 1 [] witDecision [witMsgA, witMsgB]
    rfl (by decide) (by decide) (by rfl)
  exact ⟨h.1, h.2.2.2.1⟩

/-- The witness round's started tasks. -/
def witTaskA : RoundTask :=
  { call := witCallA, handler := mkHandler witImpl "scan_sql_injection",
    args := witArgsA }

/-- Second started task of the witness round. -/
def witTaskB : RoundTask :=
  { call := witCallB, handler := mkHandler witImpl "fetch_url_content",
    args := witArgsB }

/-- Witness for C2: the round's two tasks reassembled under the reversed
completion schedule [1, 0] still yield the request-ordered results, and the
round's messages pair each request with its own handler's value. -/
theorem c2_request_order_witness :
    gatherSched [witTaskA, witTaskB] [1, 0]
      = some ([witTaskA, witTaskB].map runTask)
    ∧ processRound (function_map witImpl) [witCallA, witCallB]
        = .ok (List.zipWith toolResultMessage [witCallA, witCallB]
            [Json.str "scan_sql_injection", Json.str "fetch_url_content"]) := by
  have hsched : ∀ i, i < ([witTaskA, witTaskB] : List RoundTask).length → i ∈ [1, 0] := by
    intro i hi
    have h2 : i = 0 ∨ i = 1 := by
      simp only [List.length_cons, List.length_nil] at hi
      omega
    rcases h2 with h | h <;> simp [h]
  have h := c2_request_order_independent_of_completion
    (rfl : buildTasks (function_map witImpl) [witCallA, witCallB]
      = .ok [witTaskA, witTaskB])
    hsched
    (rfl : gatherResults [witTaskA, witTaskB]
      = .ok [Json.str "scan_sql_injection", Json.str "fetch_url_content"])
  exact ⟨h.1, h.2.1⟩

/-- A backend that immediately answers with no tool calls. -/
def doneBackend : List Message → List String → Decision :=
  fun _ _ => { content := some "no capabilities needed", tool_calls := [] }

/-- A backend that stops with absent content. -/
def noneBackend : List Message → List String → Decision :=
  fun _ _ => { content := none, tool_calls := [] }

/-- Witness for C3: a first decision carrying no tool calls with content
"no capabilities needed" returns exactly that text after one round, and an
absent content returns the empty string. -/
theorem c3_no_tool_calls_witness :
    function_call doneBackend (function_map witImpl) url_tools_names 1 []
      = .done [Decision.toMessage { content := some "no capabilities needed", tool_calls := [] }]
          "no capabilities needed"
    ∧ function_call noneBackend (function_map witImpl) url_tools_names 1 []
      = .done [Decision.toMessage { content := none, tool_calls := [] }] "" :=
  ⟨c3_no_tool_calls_terminates rfl rfl, c3_no_tool_calls_terminates rfl rfl⟩

/-- Handler bodies where the SQL-injection capability raises. -/
def failImpl : String → HandlerBody :=
  fun n _ => if n = "scan_sql_injection" then .error "boom" else .ok .null

/-- Witness for C4: with `witCallA`'s handler raising, the two-request round
aborts and the history gains only the decision message — neither the failing
call's nor the sibling's tool result is appended. -/
theorem c4_handler_fault_witness :
    ∃ f', processRound (function_map failImpl) witDecision.tool_calls
        = .error (.capabilityFault f')
      ∧ function_call witBackend (function_map failImpl) url_tools_names 1 []
          = .aborted ([] ++ [witDecision.toMessage]) (.capabilityFault f') :=
  c4_handler_fault_aborts_round
    (rfl : witBackend [] url_tools_names = witDecision)
    (by decide)
    (rfl : buildTasks (function_map failImpl) witDecision.tool_calls
      = .ok [{ call := witCallA, handler := mkHandler failImpl "scan_sql_injection",
               args := witArgsA },
             { call := witCallB, handler := mkHandler failImpl "fetch_url_content",
               args := witArgsB }])
    (List.mem_cons_self _ _)
    (rfl : runTask
        { call := witCallA, handler := mkHandler failImpl "scan_sql_injection",
          args := witArgsA }
      = .error "boom")

/-- A request naming a capability absent from `function_map`. -/
def unkCall : ToolCall :=
  { id := "u1", name := "not_a_tool", arguments := "\x7b\x7d" }

/-- A decision with one well-formed request followed by the unknown one. -/
def unkDecision : Decision :=
  { content := none, tool_calls := [witCallA, unkCall] }

/-- A backend issuing the unknown-capability round. -/
def unkBackend : List Message → List String → Decision :=
  fun _ _ => unkDecision

/-- Witness for C5 (amended): the round naming `not_a_tool` aborts with
`UnknownCapability` and appends no tool-result message. -/
theorem c5_amended_witness :
    processRound (function_map witImpl) unkDecision.tool_calls
        = .error (.unknownCapability "not_a_tool")
    ∧ function_call unkBackend (function_map witImpl) url_tools_names 1 []
        = .aborted ([] ++ [unkDecision.toMessage]) (.unknownCapability "not_a_tool") :=
  @c5_amended_unknown_capability unkBackend url_tools_names 0 [] unkDecision
    [witCallA] unkCall [] rfl rfl (by decide) rfl (by decide) witImpl

/-- A request whose arguments payload is the malformed text "\x7b". -/
def badCall : ToolCall :=
  { id := "b1", name := "fetch_url_content", arguments := "\x7b" }

/-- A decision with one well-formed request followed by the malformed one. -/
def badDecision : Decision :=
  { content := none, tool_calls := [witCallA, badCall] }

/-- A backend issuing the malformed-arguments round. -/
def badBackend : List Message → List String → Decision :=
  fun _ _ => badDecision

/-- Witness for C6: the payload "\x7b" aborts the round with
`ArgumentDecodeError` before any handler runs, appending nothing. -/
theorem c6_decode_failure_witness :
    processRound (function_map witImpl) badDecision.tool_calls
        = .error (.argumentDecodeError "\x7b")
    ∧ function_call badBackend (function_map witImpl) url_tools_names 1 []
        = .aborted ([] ++ [badDecision.toMessage]) (.argumentDecodeError "\x7b") :=
  @c6_decode_failure_fatal badBackend url_tools_names 0 [] badDecision
    [witCallA] badCall [] rfl rfl (by decide) rfl witImpl

/-- Handler bodies returning a non-ASCII string. -/
def cjkImpl : String → HandlerBody := fun _ _ => .ok (.str "中文→ü")

/-- Witness for C8: the tool-result content for a handler returning
"中文→ü" is its JSON serialization, with the non-ASCII text preserved
verbatim between quotes. -/
theorem c8_fidelity_witness :
    processRound (function_map cjkImpl) [witCallA]
      = .ok (List.zipWith toolResultMessage [witCallA] [Json.str "中文→ü"])
    ∧ (toolResultMessage witCallA (Json.str "中文→ü")).content
        = some (Json.dumps (Json.str "中文→ü"))
    ∧ Json.dumps (Json.str "中文→ü") = "\"" ++ "中文→ü" ++ "\"" := by
  have h := c8_serialized_content_fidelity
    (rfl : buildTasks (function_map cjkImpl) [witCallA]
      = .ok [{ call := witCallA, handler := mkHandler cjkImpl "scan_sql_injection",
               args := witArgsA }])
    (rfl : gatherResults
        [{ call := witCallA, handler := mkHandler cjkImpl "scan_sql_injection",
           args := witArgsA }]
      = .ok [Json.str "中文→ü"])
  exact ⟨h.1, h.2.1 witCallA (Json.str "中文→ü"), h.2.2.2 "中文→ü" (by decide)⟩

/-- Witness for C9: from a state with a recorded service process, a raising
scan yields the empty list and a stopped (cleared) service. -/
theorem c9_contains_faults_witness :
    (scan_sql_injection { process := some 7 } 9 (.raises "boom")).value = []
    ∧ (scan_sql_injection { process := some 7 } 9 (.raises "boom")).state.process = none :=
  (c9_sql_injection_contains_faults { process := some 7 } 9 (.raises "boom") "boom" rfl).1

end SREScanner
